import Mathlib

/-!
# notesall — `server.js`

A shallow embedding of the twelve Express route handlers of `server.js` and of the three
Mongoose collections (`Folder`, `File`, `Note`) they act on, followed by the theorems that
settle the cascading-delete, update and creation properties of the specification.

Conventions of the embedding

* A document is a record whose user fields are `Option String`: `none` is the JavaScript
  `undefined` (the property is absent), `some s` is the string `s`.  `_id` is the ObjectId of
  the document, written as its 24 lower-case hexadecimal digits (what `toString` and the JSON
  answer show); `createdAt` is the millisecond timestamp of `Date.now`.
* A collection is the list of its documents, oldest first.
* The schemas declare no `_id`, so `_id` has the ObjectId type while `folderId` and `fileId`
  are strings.  A query on `_id` casts the request string to an ObjectId first: the cast reads
  hexadecimal digits in either case and fails on anything that is not 24 of them.  A query on
  `folderId` or `fileId` compares strings exactly.
* Every `await`ed Mongoose call is one step.  A call whose id does not cast rejects before the
  storage is reached.  A call that reaches the storage either completes, and its result store
  is appended to the log of the run, or it rejects and leaves the store as it was.  A rejected
  `await` throws, so the rest of the `async` handler is skipped and `res.json` is never
  reached.
-/

namespace NotesAll

/-! ## Documents (`folderSchema`, `fileSchema`, `noteSchema`) -/

/-- A document of the `Folder` model: `{ name: String, createdAt: Date }` plus `_id`. -/
structure Folder where
  _id : String
  name : Option String
  createdAt : Nat
deriving DecidableEq

/-- A document of the `File` model: `{ folderId, name, content: String, createdAt }` plus `_id`. -/
structure File where
  _id : String
  folderId : Option String
  name : Option String
  content : Option String
  createdAt : Nat
deriving DecidableEq

/-- A document of the `Note` model: `{ fileId, title, content: String, createdAt }` plus `_id`. -/
structure Note where
  _id : String
  fileId : Option String
  title : Option String
  content : Option String
  createdAt : Nat
deriving DecidableEq

/-- The three collections of the database. -/
structure Store where
  folders : List Folder
  files : List File
  notes : List Note
deriving DecidableEq

/-- The fields of `req.body` that the handlers read; an absent property reads as `undefined`,
which is `none`. -/
structure ReqBody where
  name : Option String
  folderId : Option String
  fileId : Option String
  title : Option String
  content : Option String
deriving DecidableEq

/-- What a handler passes to `res.json`. A `null` document is `none`. -/
inductive ResBody where
  | success : ResBody
  | folderList : List Folder → ResBody
  | fileList : List File → ResBody
  | noteList : List Note → ResBody
  | folderDoc : Option Folder → ResBody
  | fileDoc : Option File → ResBody
  | noteDoc : Option Note → ResBody
deriving DecidableEq

/-! ## The ObjectId cast -/

/-- One hexadecimal digit, read in either case and written in lower case; `none` for any other
character. -/
def hexLower : Char → Option Char
  | '0' => some '0'
  | '1' => some '1'
  | '2' => some '2'
  | '3' => some '3'
  | '4' => some '4'
  | '5' => some '5'
  | '6' => some '6'
  | '7' => some '7'
  | '8' => some '8'
  | '9' => some '9'
  | 'a' => some 'a'
  | 'b' => some 'b'
  | 'c' => some 'c'
  | 'd' => some 'd'
  | 'e' => some 'e'
  | 'f' => some 'f'
  | 'A' => some 'a'
  | 'B' => some 'b'
  | 'C' => some 'c'
  | 'D' => some 'd'
  | 'E' => some 'e'
  | 'F' => some 'f'
  | _ => none

/-- The digits of a hexadecimal string in lower case; `none` when a character is no digit. -/
def castHex : List Char → Option (List Char)
  | [] => some []
  | c :: cs =>
    match hexLower c, castHex cs with
    | some d, some ds => some (d :: ds)
    | _, _ => none

/-- The cast that Mongoose applies to the id argument of a query on `_id` (library code, not in
`server.js`): a string of 24 hexadecimal digits is the ObjectId with those digits, whatever
their case; any other string is no ObjectId and the query rejects with a CastError. -/
def castObjectId (id : String) : Option String :=
  if id.data.length = 24 then (castHex id.data).map String.mk else none

/-! ## Storage access layer (Mongoose model methods) -/

/-- Modelled from the spec: the Mongoose update semantics are library code that is not part of
`server.js`.  Spec 4.1, `updateById`: "merges given fields into the existing record; unspecified
fields retain prior values".  A field whose value in the update object is `undefined` is not
given, so the prior value stays. -/
def mergeField (given prior : Option String) : Option String :=
  match given with
  | some v => some v
  | none => prior

/-- Modelled from the spec: `Model.findOneAndUpdate({ _id: oid }, update, { new: true })` of
the Mongoose library, on one collection.  Spec 4.1, `updateById(collection, id, partialFields)
-> updated record or NotFound`: the document with that `_id` is replaced by its merged version,
which is returned (`new: true`); when no document has it the result is `none` (`null`) and the
collection is as before. -/
def Model.findOneAndUpdate {α : Type} (getId : α → String) (oid : String) (set : α → α) :
    List α → Option α × List α
  | [] => (none, [])
  | d :: ds =>
    if getId d = oid then (some (set d), set d :: ds)
    else
      let r := Model.findOneAndUpdate getId oid set ds
      (r.1, d :: r.2)

/-- Modelled from the spec: `Model.findOneAndDelete({ _id: oid })` of the Mongoose library, on
one collection.  Spec 4.1, `deleteById(collection, id) -> success/NotFound`: the document with
that `_id` is removed and returned; when no document has it the result is `none` and the
collection is as before. -/
def Model.findOneAndDelete {α : Type} (getId : α → String) (oid : String) :
    List α → Option α × List α
  | [] => (none, [])
  | d :: ds =>
    if getId d = oid then (some d, ds)
    else
      let r := Model.findOneAndDelete getId oid ds
      (r.1, d :: r.2)

/-- The call `Model.findByIdAndUpdate(id, update, { new: true })`: `findOneAndUpdate` on the
ObjectId that the string `id` casts to; `none`, the call rejects, when `id` does not cast. -/
def Model.findByIdAndUpdate {α : Type} (getId : α → String) (id : String) (set : α → α)
    (docs : List α) : Option (Option α × List α) :=
  match castObjectId id with
  | some oid => some (Model.findOneAndUpdate getId oid set docs)
  | none => none

/-- The call `Model.findByIdAndDelete(id)`: `findOneAndDelete` on the ObjectId that the string
`id` casts to; `none`, the call rejects, when `id` does not cast. -/
def Model.findByIdAndDelete {α : Type} (getId : α → String) (id : String) (docs : List α) :
    Option (Option α × List α) :=
  match castObjectId id with
  | some oid => some (Model.findOneAndDelete getId oid docs)
  | none => none

/-- Modelled from the spec: `Model.find(filter)` of the Mongoose library with an equality filter
on one string field.  Spec 4.1, `findAll(collection, filter)`: "returns all records matching an
equality filter". -/
def Model.find {α : Type} (field : α → Option String) (value : String) (docs : List α) :
    List α :=
  docs.filter (fun d => decide (field d = some value))

/-- Modelled from the spec: `Model.deleteMany(filter)` of the Mongoose library with an equality
filter on one string field.  Spec 4.1, `deleteMany(collection, filter) -> count deleted`: every
matching document is removed. -/
def Model.deleteMany {α : Type} (field : α → Option String) (value : String) (docs : List α) :
    Nat × List α :=
  ((Model.find field value docs).length, docs.filter (fun d => !decide (field d = some value)))

/-- Modelled from the spec: `doc.save()` of a newly constructed document.  Spec 4.1,
`insert(collection, record)`: "persists, returns the stored record". -/
def Model.save {α : Type} (doc : α) (docs : List α) : α × List α :=
  (doc, docs ++ [doc])

/-- The call `Folder.find()`. -/
def Folder.find (s : Store) : Option (List Folder × Store) := some (s.folders, s)

/-- The call `folder.save()`. -/
def Folder.save (doc : Folder) (s : Store) : Option (Folder × Store) :=
  some ((Model.save doc s.folders).1, { s with folders := (Model.save doc s.folders).2 })

/-- The call `Folder.findByIdAndUpdate(id, { name }, { new: true })`. -/
def Folder.findByIdAndUpdate (id : String) (name : Option String) (s : Store) :
    Option (Option Folder × Store) :=
  match Model.findByIdAndUpdate Folder._id id
      (fun d => { d with name := mergeField name d.name }) s.folders with
  | some r => some (r.1, { s with folders := r.2 })
  | none => none

/-- The call `Folder.findByIdAndDelete(id)`. -/
def Folder.findByIdAndDelete (id : String) (s : Store) : Option (Option Folder × Store) :=
  match Model.findByIdAndDelete Folder._id id s.folders with
  | some r => some (r.1, { s with folders := r.2 })
  | none => none

/-- The call `File.find({ folderId })`. -/
def File.find (folderId : String) (s : Store) : Option (List File × Store) :=
  some (Model.find File.folderId folderId s.files, s)

/-- The call `file.save()`. -/
def File.save (doc : File) (s : Store) : Option (File × Store) :=
  some ((Model.save doc s.files).1, { s with files := (Model.save doc s.files).2 })

/-- The call `File.findByIdAndUpdate(id, { name, content }, { new: true })`. -/
def File.findByIdAndUpdate (id : String) (name content : Option String) (s : Store) :
    Option (Option File × Store) :=
  match Model.findByIdAndUpdate File._id id
      (fun d => { d with name := mergeField name d.name,
                         content := mergeField content d.content }) s.files with
  | some r => some (r.1, { s with files := r.2 })
  | none => none

/-- The call `File.deleteMany({ folderId })`. -/
def File.deleteMany (folderId : String) (s : Store) : Option (Nat × Store) :=
  some ((Model.deleteMany File.folderId folderId s.files).1,
        { s with files := (Model.deleteMany File.folderId folderId s.files).2 })

/-- The call `File.findByIdAndDelete(id)`. -/
def File.findByIdAndDelete (id : String) (s : Store) : Option (Option File × Store) :=
  match Model.findByIdAndDelete File._id id s.files with
  | some r => some (r.1, { s with files := r.2 })
  | none => none

/-- The call `Note.find({ fileId })`. -/
def Note.find (fileId : String) (s : Store) : Option (List Note × Store) :=
  some (Model.find Note.fileId fileId s.notes, s)

/-- The call `note.save()`. -/
def Note.save (doc : Note) (s : Store) : Option (Note × Store) :=
  some ((Model.save doc s.notes).1, { s with notes := (Model.save doc s.notes).2 })

/-- The call `Note.findByIdAndUpdate(id, { title, content }, { new: true })`. -/
def Note.findByIdAndUpdate (id : String) (title content : Option String) (s : Store) :
    Option (Option Note × Store) :=
  match Model.findByIdAndUpdate Note._id id
      (fun d => { d with title := mergeField title d.title,
                         content := mergeField content d.content }) s.notes with
  | some r => some (r.1, { s with notes := r.2 })
  | none => none

/-- The call `Note.deleteMany({ fileId })`. The filter value is cast to the string type of
`fileId`, so the ObjectId `f._id` of the folder delete is compared as its string. -/
def Note.deleteMany (fileId : String) (s : Store) : Option (Nat × Store) :=
  some ((Model.deleteMany Note.fileId fileId s.notes).1,
        { s with notes := (Model.deleteMany Note.fileId fileId s.notes).2 })

/-- The call `Note.findByIdAndDelete(id)`. -/
def Note.findByIdAndDelete (id : String) (s : Store) : Option (Option Note × Store) :=
  match Model.findByIdAndDelete Note._id id s.notes with
  | some r => some (r.1, { s with notes := r.2 })
  | none => none

/-! ## Running an `async` handler -/

/-- The state a handler runs in: the database, the pending storage fault (`some k`: the
storage completes `k` more calls and fails the next one, once; `none`: no fault is pending),
and the log of the stores that the completed calls of this run left behind, oldest first. -/
structure World where
  store : Store
  faultIn : Option Nat
  log : List Store
deriving DecidableEq

/-- The outcome of a promise: fulfilled with a value, or rejected. -/
inductive Res (α : Type) where
  | ok : α → Res α
  | rejected : Res α
deriving DecidableEq

/-- An `async` computation over the database. -/
def Db (α : Type) : Type := World → Res α × World

/-- Sequencing of `async` code: a rejected step throws, the continuation is not run. -/
def Db.bind {α β : Type} (m : Db α) (k : α → Db β) : Db β := fun w =>
  match m w with
  | (Res.ok a, w1) => k a w1
  | (Res.rejected, w1) => (Res.rejected, w1)

/-- A value that needs no storage call. -/
def Db.pure {α : Type} (a : α) : Db α := fun w => (Res.ok a, w)

instance : Monad Db where
  pure := Db.pure
  bind := Db.bind

/-- One awaited Mongoose call, `await op`.  A call that rejects on its own (`op` is `none`: the
id does not cast) rejects without reaching the storage.  Otherwise, when the pending fault is
due the call rejects, the store is untouched and the fault is spent, so a call made after it
would complete; else the call completes, the new store is logged and a pending fault comes one
call nearer. -/
def await {α : Type} (op : Store → Option (α × Store)) : Db α := fun w =>
  match op w.store with
  | none => (Res.rejected, w)
  | some r =>
    match w.faultIn with
    | some 0 => (Res.rejected, { store := w.store, faultIn := none, log := w.log })
    | some (k + 1) => (Res.ok r.1, { store := r.2, faultIn := some k, log := w.log ++ [r.2] })
    | none => (Res.ok r.1, { store := r.2, faultIn := none, log := w.log ++ [r.2] })

/-- The loop `for (const x of xs) { await body(x) }`. -/
def forOf {α : Type} (xs : List α) (body : α → Db Unit) : Db Unit :=
  match xs with
  | [] => pure ()
  | x :: rest => do
    body x
    forOf rest body

/-- JavaScript `v || ""` on a string-or-undefined value: `undefined` and `""` are falsy. -/
def orEmpty (v : Option String) : String :=
  match v with
  | none => ""
  | some s => if s = "" then "" else s

/-! ## The route handlers -/

/-- Handler `app.get('/api/folders')`. -/
def getFolders : Db ResBody := do
  let folders ← await Folder.find
  pure (ResBody.folderList folders)

/-- Handler `app.post('/api/folders')`; `newId` and `now` are the ObjectId and the `Date.now`
default that `new Folder(...)` assigns. -/
def postFolders (body : ReqBody) (newId : String) (now : Nat) : Db ResBody := do
  let folder : Folder := { _id := newId, name := body.name, createdAt := now }
  let _ ← await (Folder.save folder)
  pure (ResBody.folderDoc (some folder))

/-- Handler `app.put('/api/folders/:id')`. -/
def putFoldersId (id : String) (body : ReqBody) : Db ResBody := do
  let updated ← await (Folder.findByIdAndUpdate id body.name)
  pure (ResBody.folderDoc updated)

/-- Handler `app.delete('/api/folders/:id')`. -/
def deleteFoldersId (id : String) : Db ResBody := do
  let files ← await (File.find id)
  forOf files (fun f => do
    let _ ← await (Note.deleteMany f._id)
    pure ())
  let _ ← await (File.deleteMany id)
  let _ ← await (Folder.findByIdAndDelete id)
  pure ResBody.success

/-- Handler `app.get('/api/files/:folderId')`. -/
def getFilesFolderId (folderId : String) : Db ResBody := do
  let files ← await (File.find folderId)
  pure (ResBody.fileList files)

/-- Handler `app.post('/api/files')`. -/
def postFiles (body : ReqBody) (newId : String) (now : Nat) : Db ResBody := do
  let file : File :=
    { _id := newId, folderId := body.folderId, name := body.name, content := some "",
      createdAt := now }
  let _ ← await (File.save file)
  pure (ResBody.fileDoc (some file))

/-- Handler `app.put('/api/files/:id')`. -/
def putFilesId (id : String) (body : ReqBody) : Db ResBody := do
  let file ← await (File.findByIdAndUpdate id body.name body.content)
  pure (ResBody.fileDoc file)

/-- Handler `app.delete('/api/files/:id')`. -/
def deleteFilesId (id : String) : Db ResBody := do
  let _ ← await (Note.deleteMany id)
  let _ ← await (File.findByIdAndDelete id)
  pure ResBody.success

/-- Handler `app.get('/api/notes/:fileId')`. -/
def getNotesFileId (fileId : String) : Db ResBody := do
  let notes ← await (Note.find fileId)
  pure (ResBody.noteList notes)

/-- Handler `app.post('/api/notes')`. -/
def postNotes (body : ReqBody) (newId : String) (now : Nat) : Db ResBody := do
  let note : Note :=
    { _id := newId, fileId := body.fileId, title := body.title,
      content := some (orEmpty body.content), createdAt := now }
  let _ ← await (Note.save note)
  pure (ResBody.noteDoc (some note))

/-- Handler `app.put('/api/notes/:id')`. -/
def putNotesId (id : String) (body : ReqBody) : Db ResBody := do
  let note ← await (Note.findByIdAndUpdate id body.title body.content)
  pure (ResBody.noteDoc note)

/-- Handler `app.delete('/api/notes/:id')`. -/
def deleteNotesId (id : String) : Db ResBody := do
  let _ ← await (Note.findByIdAndDelete id)
  pure ResBody.success

/-- A request served by a storage that never fails, starting from store `s`. -/
def serve (h : Db ResBody) (s : Store) : Res ResBody × World :=
  h { store := s, faultIn := none, log := [] }

/-- A request during which the storage fails once, at its call number `k` (counted from 0),
and serves every other call. -/
def serveFaulty (h : Db ResBody) (k : Nat) (s : Store) : Res ResBody × World :=
  h { store := s, faultIn := some k, log := [] }

/-! ## Fault discipline -/

/-- The stores left behind by the storage calls of the run of `m` from `s` in which the storage
never fails, in order of the calls. -/
def Db.steps {α : Type} (m : Db α) (s : Store) : List Store :=
  (m { store := s, faultIn := none, log := [] }).2.log

/-- The outcome of the run of `m` from `s` in which the storage never fails. -/
def Db.outcome {α : Type} (m : Db α) (s : Store) : Res α :=
  (m { store := s, faultIn := none, log := [] }).1

/-- The fault discipline of an `async` computation without `try`/`catch`: when the storage
fails at call number `k` of the run, the computation is rejected in the store that the first
`k` calls produced, with exactly those `k` calls logged and the fault spent; a fault that is
due only after the last call of the computation is handed on, nearer by the number of calls
made, and the run is the one without fault. -/
def Db.Lawful {α : Type} (m : Db α) : Prop :=
  ∀ (s : Store) (l : List Store),
    m { store := s, faultIn := none, log := l } =
      (m.outcome s, { store := (m.steps s).getLastD s, faultIn := none, log := l ++ m.steps s }) ∧
    ∀ k : Nat,
      (k < (m.steps s).length →
        m { store := s, faultIn := some k, log := l } =
          (Res.rejected, { store := ((m.steps s).take k).getLastD s, faultIn := none,
                           log := l ++ (m.steps s).take k })) ∧
      ((m.steps s).length ≤ k →
        m { store := s, faultIn := some k, log := l } =
          (m.outcome s, { store := (m.steps s).getLastD s,
                          faultIn := some (k - (m.steps s).length), log := l ++ m.steps s }))

/-! ## Example data -/

/-- Scenario 1 of the specification: folder "Work", file "todo.txt" with the notes "buy milk"
and "call bob", next to an unrelated folder with one file and one note. -/
def exStore : Store :=
  { folders := [{ _id := "0000000000000000000000f1", name := some "Work", createdAt := 1 },
                { _id := "0000000000000000000000f2", name := some "Home", createdAt := 2 }],
    files := [{ _id := "0000000000000000000000a1", folderId := some "0000000000000000000000f1",
                name := some "todo.txt", content := some "", createdAt := 3 },
              { _id := "0000000000000000000000a2", folderId := some "0000000000000000000000f2",
                name := some "list.txt", content := some "x", createdAt := 4 }],
    notes := [{ _id := "0000000000000000000000b1", fileId := some "0000000000000000000000a1",
                title := some "buy milk", content := some "", createdAt := 5 },
              { _id := "0000000000000000000000b2", fileId := some "0000000000000000000000a1",
                title := some "call bob", content := some "today", createdAt := 6 },
              { _id := "0000000000000000000000b3", fileId := some "0000000000000000000000a2",
                title := some "keep", content := some "me", createdAt := 7 }] }

/-- The file "todo.txt" of the example store. -/
def exFile : File :=
  { _id := "0000000000000000000000a1", folderId := some "0000000000000000000000f1",
    name := some "todo.txt", content := some "", createdAt := 3 }

/-- What remains of the example store once folder "Work", or only its file, are taken out. -/
def exKept : Store :=
  { folders := [{ _id := "0000000000000000000000f2", name := some "Home", createdAt := 2 }],
    files := [{ _id := "0000000000000000000000a2", folderId := some "0000000000000000000000f2",
                name := some "list.txt", content := some "x", createdAt := 4 }],
    notes := [{ _id := "0000000000000000000000b3", fileId := some "0000000000000000000000a2",
                title := some "keep", content := some "me", createdAt := 7 }] }

/-! ## Sequencing and faults -/

theorem bind_run {α β : Type} (m : Db α) (k : α → Db β) (w : World) :
    (m >>= k) w = match m w with
      | (Res.ok a, w1) => k a w1
      | (Res.rejected, w1) => (Res.rejected, w1) := rfl

theorem pure_run {α : Type} (a : α) (w : World) : (pure a : Db α) w = (Res.ok a, w) := rfl

theorem await_fail {α : Type} (op : Store → Option (α × Store)) (w : World)
    (h : op w.store = none) : await op w = (Res.rejected, w) := by
  simp [await, h]

theorem await_none {α : Type} (op : Store → Option (α × Store)) (s : Store) (l : List Store)
    (r : α × Store) (h : op s = some r) :
    await op { store := s, faultIn := none, log := l } =
      (Res.ok r.1, { store := r.2, faultIn := none, log := l ++ [r.2] }) := by
  simp [await, h]

theorem await_zero {α : Type} (op : Store → Option (α × Store)) (s : Store) (l : List Store)
    (r : α × Store) (h : op s = some r) :
    await op { store := s, faultIn := some 0, log := l } =
      (Res.rejected, { store := s, faultIn := none, log := l }) := by
  simp [await, h]

theorem await_succ {α : Type} (op : Store → Option (α × Store)) (s : Store) (k : Nat)
    (l : List Store) (r : α × Store) (h : op s = some r) :
    await op { store := s, faultIn := some (k + 1), log := l } =
      (Res.ok r.1, { store := r.2, faultIn := some k, log := l ++ [r.2] }) := by
  simp [await, h]

theorem getLastD_append {α : Type} (xs ys : List α) (a : α) :
    (xs ++ ys).getLastD a = ys.getLastD (xs.getLastD a) := by
  induction xs generalizing a with
  | nil => simp
  | cons x xs ih =>
    cases ys with
    | nil => simp
    | cons y ys =>
      have := ih x
      simp [List.getLastD] at this ⊢

theorem getLastD_mem {α : Type} (xs : List α) (a : α) :
    xs.getLastD a = a ∨ xs.getLastD a ∈ xs := by
  cases xs with
  | nil => exact Or.inl rfl
  | cons x xs =>
    right
    rw [List.getLastD_cons]
    induction xs generalizing x with
    | nil => simp
    | cons y ys ih =>
      rw [List.getLastD_cons]
      exact List.mem_cons_of_mem x (ih y)

theorem lawful_pure {α : Type} (a : α) : (pure a : Db α).Lawful := by
  intro s l
  simp [Db.outcome, Db.steps, pure_run]

theorem lawful_await {α : Type} (op : Store → Option (α × Store)) : (await op).Lawful := by
  intro s l
  cases h : op s with
  | none =>
    have h0 : ∀ w : World, w.store = s → await op w = (Res.rejected, w) :=
      fun w hw => await_fail op w (by rw [hw]; exact h)
    simp [Db.outcome, Db.steps, h0]
  | some r =>
    refine ⟨?_, ?_⟩
    · simp [Db.outcome, Db.steps, await_none op s _ r h]
    · intro k
      cases k with
      | zero => simp [Db.outcome, Db.steps, await_none op s _ r h, await_zero op s _ r h]
      | succ k => simp [Db.outcome, Db.steps, await_none op s _ r h, await_succ op s _ _ r h]

theorem lawful_bind {α β : Type} (m : Db α) (f : α → Db β) (hm : m.Lawful)
    (hf : ∀ a, (f a).Lawful) : (m >>= f).Lawful := by
  intro s l
  cases ha : m.outcome s with
  | rejected =>
    have hrun : ∀ l0, (m >>= f) { store := s, faultIn := none, log := l0 } =
        (Res.rejected, { store := (m.steps s).getLastD s, faultIn := none,
                         log := l0 ++ m.steps s }) := by
      intro l0
      rw [bind_run, (hm s l0).1, ha]
    have hout : (m >>= f).outcome s = Res.rejected := by
      show ((m >>= f) { store := s, faultIn := none, log := [] }).1 = _
      rw [hrun]
    have hsteps : (m >>= f).steps s = m.steps s := by
      show ((m >>= f) { store := s, faultIn := none, log := [] }).2.log = _
      rw [hrun]
      simp
    rw [hout, hsteps]
    refine ⟨hrun l, fun k => ⟨fun hk => ?_, fun hk => ?_⟩⟩
    · rw [bind_run, ((hm s l).2 k).1 hk]
    · rw [bind_run, ((hm s l).2 k).2 hk, ha]
  | ok a =>
    have hrun : ∀ l0, (m >>= f) { store := s, faultIn := none, log := l0 } =
        ((f a).outcome ((m.steps s).getLastD s),
          { store := ((f a).steps ((m.steps s).getLastD s)).getLastD ((m.steps s).getLastD s),
            faultIn := none,
            log := l0 ++ (m.steps s ++ (f a).steps ((m.steps s).getLastD s)) }) := by
      intro l0
      rw [bind_run, (hm s l0).1, ha]
      simp only []
      rw [(hf a _ _).1, List.append_assoc]
    have hout : (m >>= f).outcome s = (f a).outcome ((m.steps s).getLastD s) := by
      show ((m >>= f) { store := s, faultIn := none, log := [] }).1 = _
      rw [hrun]
    have hsteps : (m >>= f).steps s = m.steps s ++ (f a).steps ((m.steps s).getLastD s) := by
      show ((m >>= f) { store := s, faultIn := none, log := [] }).2.log = _
      rw [hrun]
      simp
    rw [hout, hsteps, getLastD_append]
    refine ⟨hrun l, fun k => ⟨fun hk => ?_, fun hk => ?_⟩⟩
    · rw [bind_run]
      by_cases hA : k < (m.steps s).length
      · rw [((hm s l).2 k).1 hA]
        simp only []
        rw [List.take_append_of_le_length (Nat.le_of_lt hA)]
      · have hA := Nat.le_of_not_lt hA
        rw [((hm s l).2 k).2 hA, ha]
        simp only []
        have hB : k - (m.steps s).length < ((f a).steps ((m.steps s).getLastD s)).length := by
          rw [List.length_append] at hk
          omega
        rw [((hf a _ _).2 _).1 hB, List.take_append_eq_append_take,
          List.take_of_length_le hA, getLastD_append, List.append_assoc]
    · rw [List.length_append] at hk
      have hA : (m.steps s).length ≤ k := by omega
      have hB : ((f a).steps ((m.steps s).getLastD s)).length ≤ k - (m.steps s).length := by
        omega
      rw [bind_run, ((hm s l).2 k).2 hA, ha]
      simp only []
      rw [((hf a _ _).2 _).2 hB, List.append_assoc, List.length_append, Nat.sub_sub]

theorem lawful_forOf {α : Type} (xs : List α) (body : α → Db Unit)
    (hbody : ∀ x, (body x).Lawful) : (forOf xs body).Lawful := by
  induction xs with
  | nil =>
    rw [forOf]
    exact lawful_pure ()
  | cons x rest ih =>
    rw [forOf]
    exact lawful_bind _ _ (hbody x) (fun _ => ih)

theorem lawful_deleteFoldersId (id : String) : (deleteFoldersId id).Lawful := by
  unfold deleteFoldersId
  exact lawful_bind _ _ (lawful_await _) (fun _ =>
    lawful_bind _ _ (lawful_forOf _ _ (fun _ =>
      lawful_bind _ _ (lawful_await _) (fun _ => lawful_pure _))) (fun _ =>
    lawful_bind _ _ (lawful_await _) (fun _ =>
    lawful_bind _ _ (lawful_await _) (fun _ => lawful_pure _))))

/-! ### The storage primitives on one collection -/

theorem findOneAndDelete_absent {α : Type} (getId : α → String) (oid : String) (docs : List α)
    (h : ∀ d ∈ docs, getId d ≠ oid) : Model.findOneAndDelete getId oid docs = (none, docs) := by
  induction docs with
  | nil => rfl
  | cons d ds ih =>
    have hd : getId d ≠ oid := h d (List.mem_cons_self d ds)
    have hds := ih (fun x hx => h x (List.mem_cons_of_mem d hx))
    simp [Model.findOneAndDelete, hd, hds]

theorem findOneAndDelete_nodup {α : Type} (getId : α → String) (oid : String) (docs : List α)
    (h : (docs.map getId).Nodup) :
    (Model.findOneAndDelete getId oid docs).2 =
      docs.filter (fun d => !decide (getId d = oid)) := by
  induction docs with
  | nil => rfl
  | cons d ds ih =>
    rw [List.map_cons, List.nodup_cons] at h
    by_cases hd : getId d = oid
    · have hall : ∀ x ∈ ds, getId x ≠ oid := by
        intro x hx hxid
        exact h.1 (List.mem_map.mpr ⟨x, hx, by rw [hxid, hd]⟩)
      have hfil : ds.filter (fun x => !decide (getId x = oid)) = ds :=
        List.filter_eq_self.mpr (fun x hx => by simpa using hall x hx)
      simp [Model.findOneAndDelete, hd, hfil]
    · simp [Model.findOneAndDelete, hd, ih h.2]

theorem findOneAndUpdate_absent {α : Type} (getId : α → String) (oid : String) (set : α → α)
    (docs : List α) (h : ∀ d ∈ docs, getId d ≠ oid) :
    Model.findOneAndUpdate getId oid set docs = (none, docs) := by
  induction docs with
  | nil => rfl
  | cons d ds ih =>
    have hd : getId d ≠ oid := h d (List.mem_cons_self d ds)
    have hds := ih (fun x hx => h x (List.mem_cons_of_mem d hx))
    simp [Model.findOneAndUpdate, hd, hds]

theorem findOneAndUpdate_nodup {α : Type} (getId : α → String) (set : α → α)
    (docs : List α) (h : (docs.map getId).Nodup) (e : α) (he : e ∈ docs) :
    Model.findOneAndUpdate getId (getId e) set docs =
      (some (set e), docs.map (fun d => if getId d = getId e then set d else d)) := by
  induction docs with
  | nil => cases he
  | cons d ds ih =>
    rw [List.map_cons, List.nodup_cons] at h
    by_cases hd : getId d = getId e
    · have hde : d = e := by
        rcases List.mem_cons.mp he with h1 | h1
        · exact h1.symm
        · exact absurd (List.mem_map.mpr ⟨e, h1, hd.symm⟩) h.1
      subst hde
      have hmap : ds.map (fun x => if getId x = getId d then set x else x) = ds := by
        have : ∀ x ∈ ds, (if getId x = getId d then set x else x) = x := by
          intro x hx
          have : getId x ≠ getId d := fun hxd => h.1 (List.mem_map.mpr ⟨x, hx, hxd⟩)
          simp [this]
        calc ds.map (fun x => if getId x = getId d then set x else x)
            = ds.map id := List.map_congr_left this
          _ = ds := List.map_id ds
      simp [Model.findOneAndUpdate, hmap]
    · have hmem : e ∈ ds := by
        rcases List.mem_cons.mp he with h1 | h1
        · exact absurd (by rw [h1]) hd
        · exact h1
      simp [Model.findOneAndUpdate, hd, ih h.2 hmem]

theorem mem_find {α : Type} (field : α → Option String) (value : String) (docs : List α)
    (d : α) : d ∈ Model.find field value docs ↔ d ∈ docs ∧ field d = some value := by
  simp [Model.find, List.mem_filter]

theorem find_eq_nil {α : Type} (field : α → Option String) (value : String) (docs : List α)
    (h : ∀ d ∈ docs, field d ≠ some value) : Model.find field value docs = [] := by
  simp only [Model.find, List.filter_eq_nil_iff]
  intro d hd
  simpa using h d hd

theorem filter_ne_clears {α : Type} (field : α → Option String) (value : String)
    (docs : List α) :
    ∀ d ∈ docs.filter (fun d => !decide (field d = some value)), field d ≠ some value := by
  intro d hd
  simpa using (List.mem_filter.mp hd).2

theorem filter_id_clears {α : Type} (getId : α → String) (oid : String) (docs : List α) :
    ∀ d ∈ docs.filter (fun d => !decide (getId d = oid)), getId d ≠ oid := by
  intro d hd
  simpa using (List.mem_filter.mp hd).2

/-! ### The loop of the folder delete -/

theorem notesLoop_store (fs : List File) (s : Store) :
    fs.foldl (fun t f =>
        { folders := t.folders, files := t.files,
          notes := t.notes.filter (fun n => !decide (n.fileId = some f._id)) }) s =
      { folders := s.folders, files := s.files,
        notes := s.notes.filter (fun n => decide (∀ f ∈ fs, n.fileId ≠ some f._id)) } := by
  induction fs generalizing s with
  | nil => simp
  | cons f fs ih =>
    rw [List.foldl_cons, ih]
    simp only [List.filter_filter]
    congr 1
    apply List.filter_congr
    intro n _
    simp [Bool.and_comm]

theorem notesLoop_run (fs : List File) (s : Store) (l : List Store) :
    forOf fs (fun f => do let _ ← await (Note.deleteMany f._id); pure ())
        { store := s, faultIn := none, log := l } =
      (Res.ok (),
        { store := fs.foldl (fun t f =>
            { folders := t.folders, files := t.files,
              notes := t.notes.filter (fun n => !decide (n.fileId = some f._id)) }) s,
          faultIn := none,
          log := l ++ (fs.scanl (fun t f =>
            { folders := t.folders, files := t.files,
              notes := t.notes.filter (fun n => !decide (n.fileId = some f._id)) }) s).tail }) := by
  induction fs generalizing s l with
  | nil => simp [forOf, pure_run]
  | cons f fs ih =>
    rw [forOf]
    simp only [bind_run, await_none _ s l _ (rfl : Note.deleteMany f._id s = some _), pure_run]
    rw [ih]
    cases fs <;> simp [List.scanl, Model.deleteMany]

theorem notesLoop_log (fs : List File) (s : Store) :
    ∀ t ∈ fs.scanl (fun t f =>
        { folders := t.folders, files := t.files,
          notes := t.notes.filter (fun n => !decide (n.fileId = some f._id)) }) s,
      t.folders = s.folders ∧ t.files = s.files := by
  induction fs generalizing s with
  | nil => simp
  | cons f fs ih =>
    intro t ht
    simp only [List.scanl, List.mem_cons] at ht
    rcases ht with rfl | ht
    · exact ⟨rfl, rfl⟩
    · exact ih { folders := s.folders, files := s.files,
                 notes := s.notes.filter (fun n => !decide (n.fileId = some f._id)) } t ht

/-! ### The runs of the two cascading deletes -/

theorem deleteFoldersId_run (id oid : String) (s : Store) (h : castObjectId id = some oid) :
    serve (deleteFoldersId id) s =
      (Res.ok ResBody.success,
        { store :=
            { folders := (Model.findOneAndDelete Folder._id oid s.folders).2,
              files := s.files.filter (fun f => !decide (f.folderId = some id)),
              notes := s.notes.filter (fun n =>
                decide (∀ f ∈ Model.find File.folderId id s.files, n.fileId ≠ some f._id)) },
          faultIn := none,
          log := s ::
            ((Model.find File.folderId id s.files).scanl (fun t f =>
              { folders := t.folders, files := t.files,
                notes := t.notes.filter (fun n => !decide (n.fileId = some f._id)) }) s).tail ++
            [{ folders := s.folders,
               files := s.files.filter (fun f => !decide (f.folderId = some id)),
               notes := s.notes.filter (fun n =>
                decide (∀ f ∈ Model.find File.folderId id s.files, n.fileId ≠ some f._id)) },
             { folders := (Model.findOneAndDelete Folder._id oid s.folders).2,
               files := s.files.filter (fun f => !decide (f.folderId = some id)),
               notes := s.notes.filter (fun n =>
                decide (∀ f ∈ Model.find File.folderId id s.files,
                  n.fileId ≠ some f._id)) }] }) := by
  simp only [serve, deleteFoldersId, bind_run,
    await_none _ _ _ _ (rfl : File.find id _ = some _), pure_run, notesLoop_run,
    notesLoop_store, await_none _ _ _ _ (rfl : File.deleteMany id _ = some _)]
  rw [await_none (Folder.findByIdAndDelete id) _ _
    ((Model.findOneAndDelete Folder._id oid s.folders).1,
      { folders := (Model.findOneAndDelete Folder._id oid s.folders).2,
        files := s.files.filter (fun f => !decide (f.folderId = some id)),
        notes := s.notes.filter (fun n =>
          decide (∀ f ∈ Model.find File.folderId id s.files, n.fileId ≠ some f._id)) })
    (by simp [Folder.findByIdAndDelete, Model.findByIdAndDelete, h, Model.deleteMany])]
  simp [Model.deleteMany]

theorem deleteFoldersId_run_reject (id : String) (s : Store) (h : castObjectId id = none) :
    serve (deleteFoldersId id) s =
      (Res.rejected,
        { store :=
            { folders := s.folders,
              files := s.files.filter (fun f => !decide (f.folderId = some id)),
              notes := s.notes.filter (fun n =>
                decide (∀ f ∈ Model.find File.folderId id s.files, n.fileId ≠ some f._id)) },
          faultIn := none,
          log := s ::
            ((Model.find File.folderId id s.files).scanl (fun t f =>
              { folders := t.folders, files := t.files,
                notes := t.notes.filter (fun n => !decide (n.fileId = some f._id)) }) s).tail ++
            [{ folders := s.folders,
               files := s.files.filter (fun f => !decide (f.folderId = some id)),
               notes := s.notes.filter (fun n =>
                decide (∀ f ∈ Model.find File.folderId id s.files,
                  n.fileId ≠ some f._id)) }] }) := by
  simp only [serve, deleteFoldersId, bind_run,
    await_none _ _ _ _ (rfl : File.find id _ = some _), pure_run, notesLoop_run,
    notesLoop_store, await_none _ _ _ _ (rfl : File.deleteMany id _ = some _)]
  rw [await_fail (Folder.findByIdAndDelete id) _
    (by simp [Folder.findByIdAndDelete, Model.findByIdAndDelete, h])]
  simp [Model.deleteMany]

theorem deleteFilesId_run (id oid : String) (s : Store) (h : castObjectId id = some oid) :
    serve (deleteFilesId id) s =
      (Res.ok ResBody.success,
        { store :=
            { folders := s.folders,
              files := (Model.findOneAndDelete File._id oid s.files).2,
              notes := s.notes.filter (fun n => !decide (n.fileId = some id)) },
          faultIn := none,
          log :=
            [{ folders := s.folders, files := s.files,
               notes := s.notes.filter (fun n => !decide (n.fileId = some id)) },
             { folders := s.folders,
               files := (Model.findOneAndDelete File._id oid s.files).2,
               notes := s.notes.filter (fun n => !decide (n.fileId = some id)) }] }) := by
  simp [serve, deleteFilesId, bind_run, pure_run, await, Note.deleteMany, Model.deleteMany,
    File.findByIdAndDelete, Model.findByIdAndDelete, h]

theorem deleteFilesId_run_reject (id : String) (s : Store) (h : castObjectId id = none) :
    serve (deleteFilesId id) s =
      (Res.rejected,
        { store :=
            { folders := s.folders, files := s.files,
              notes := s.notes.filter (fun n => !decide (n.fileId = some id)) },
          faultIn := none,
          log :=
            [{ folders := s.folders, files := s.files,
               notes := s.notes.filter (fun n => !decide (n.fileId = some id)) }] }) := by
  simp [serve, deleteFilesId, bind_run, pure_run, await, Note.deleteMany, Model.deleteMany,
    File.findByIdAndDelete, Model.findByIdAndDelete, h]

theorem getFilesFolderId_run (folderId : String) (s : Store) :
    serve (getFilesFolderId folderId) s =
      (Res.ok (ResBody.fileList (Model.find File.folderId folderId s.files)),
        { store := s, faultIn := none, log := [s] }) := rfl

theorem getNotesFileId_run (fileId : String) (s : Store) :
    serve (getNotesFileId fileId) s =
      (Res.ok (ResBody.noteList (Model.find Note.fileId fileId s.notes)),
        { store := s, faultIn := none, log := [s] }) := rfl

theorem folderNotes_cleared (s : Store) (F : String) :
    ∀ f ∈ s.files, f.folderId = some F →
      ∀ n ∈ s.notes.filter (fun n =>
        decide (∀ f ∈ Model.find File.folderId F s.files, n.fileId ≠ some f._id)),
      n.fileId ≠ some f._id := by
  intro f hf hF n hn
  have h := (List.mem_filter.mp hn).2
  simp only [decide_eq_true_eq] at h
  exact h f ((mem_find _ _ _ _).mpr ⟨hf, hF⟩)

/-! ## The claims -/

/-- C1. No orphan after the folder delete: from every store and for every folder id `F`, the
handler of `DELETE /api/folders/:id` answers `{success: true}` whenever `F` casts to an
ObjectId, and in the store it leaves no File has `folderId = F` and no Note has as `fileId` the
id of a File that had `folderId = F` before the call; so listing the Files under `F`, and
listing the Notes under any such File, gives the empty sequence. -/
theorem deleteFolder_no_orphans (s : Store) (F : String) :
    (castObjectId F ≠ none → (serve (deleteFoldersId F) s).1 = Res.ok ResBody.success) ∧
    (∀ f ∈ (serve (deleteFoldersId F) s).2.store.files, f.folderId ≠ some F) ∧
    (∀ f ∈ s.files, f.folderId = some F →
      ∀ n ∈ (serve (deleteFoldersId F) s).2.store.notes, n.fileId ≠ some f._id) ∧
    (serve (getFilesFolderId F) (serve (deleteFoldersId F) s).2.store).1 =
      Res.ok (ResBody.fileList []) ∧
    (∀ f ∈ s.files, f.folderId = some F →
      (serve (getNotesFileId f._id) (serve (deleteFoldersId F) s).2.store).1 =
        Res.ok (ResBody.noteList [])) := by
  have hfiles := filter_ne_clears File.folderId F s.files
  have hnotes := folderNotes_cleared s F
  cases h : castObjectId F with
  | none =>
    rw [deleteFoldersId_run_reject F s h]
    refine ⟨fun hne => absurd rfl hne, hfiles, hnotes, ?_, ?_⟩
    · rw [getFilesFolderId_run]
      simp only [find_eq_nil File.folderId F _ hfiles]
    · intro f hf hF
      rw [getNotesFileId_run]
      simp only [find_eq_nil Note.fileId f._id _ (hnotes f hf hF)]
  | some oid =>
    rw [deleteFoldersId_run F oid s h]
    refine ⟨fun _ => rfl, hfiles, hnotes, ?_, ?_⟩
    · rw [getFilesFolderId_run]
      simp only [find_eq_nil File.folderId F _ hfiles]
    · intro f hf hF
      rw [getNotesFileId_run]
      simp only [find_eq_nil Note.fileId f._id _ (hnotes f hf hF)]

/-- Scenario 1 on the example store: deleting folder "Work", which holds the file "todo.txt"
with two notes. -/
theorem deleteFolder_no_orphans_witness :
    (serve (deleteFoldersId "0000000000000000000000f1") exStore).1 = Res.ok ResBody.success ∧
    (serve (getFilesFolderId "0000000000000000000000f1")
      (serve (deleteFoldersId "0000000000000000000000f1") exStore).2.store).1 =
      Res.ok (ResBody.fileList []) ∧
    (serve (getNotesFileId "0000000000000000000000a1")
      (serve (deleteFoldersId "0000000000000000000000f1") exStore).2.store).1 =
      Res.ok (ResBody.noteList []) :=
  ⟨(deleteFolder_no_orphans exStore "0000000000000000000000f1").1 (by decide),
   (deleteFolder_no_orphans exStore "0000000000000000000000f1").2.2.2.1,
   (deleteFolder_no_orphans exStore "0000000000000000000000f1").2.2.2.2 exFile
     (by decide) (by decide)⟩

/-- C2. The file delete cascades: from every store whose File ids are unique and for every file
id `X`, the handler of `DELETE /api/files/:id` answers `{success: true}` whenever `X` casts to
an ObjectId, and it leaves a store in which no Note has `fileId = X` and no File has the
ObjectId of `X`; when the File ids of the store are lower-case hexadecimal, as ObjectIds print,
no File has the string `X` as its id. -/
theorem deleteFile_cascades (s : Store) (X : String) (hu : (s.files.map File._id).Nodup) :
    (castObjectId X ≠ none → (serve (deleteFilesId X) s).1 = Res.ok ResBody.success) ∧
    (∀ n ∈ (serve (deleteFilesId X) s).2.store.notes, n.fileId ≠ some X) ∧
    (∀ f ∈ (serve (deleteFilesId X) s).2.store.files, castObjectId X ≠ some f._id) ∧
    ((∀ f ∈ s.files, castObjectId f._id = some f._id) →
      ∀ f ∈ (serve (deleteFilesId X) s).2.store.files, f._id ≠ X) := by
  have main : (castObjectId X ≠ none → (serve (deleteFilesId X) s).1 = Res.ok ResBody.success) ∧
      (∀ n ∈ (serve (deleteFilesId X) s).2.store.notes, n.fileId ≠ some X) ∧
      (∀ f ∈ (serve (deleteFilesId X) s).2.store.files, castObjectId X ≠ some f._id) ∧
      (∀ f ∈ (serve (deleteFilesId X) s).2.store.files, f ∈ s.files) := by
    cases h : castObjectId X with
    | none =>
      rw [deleteFilesId_run_reject X s h]
      exact ⟨fun hne => absurd rfl hne, filter_ne_clears Note.fileId X s.notes,
        fun _ _ hc => Option.noConfusion hc, fun _ hf => hf⟩
    | some oid =>
      rw [deleteFilesId_run X oid s h]
      refine ⟨fun _ => rfl, filter_ne_clears Note.fileId X s.notes, ?_, ?_⟩
      · show ∀ f ∈ (Model.findOneAndDelete File._id oid s.files).2, some oid ≠ some f._id
        rw [findOneAndDelete_nodup File._id oid s.files hu]
        intro f hf hc
        exact filter_id_clears File._id oid s.files f hf (Option.some.inj hc).symm
      · show ∀ f ∈ (Model.findOneAndDelete File._id oid s.files).2, f ∈ s.files
        rw [findOneAndDelete_nodup File._id oid s.files hu]
        intro f hf
        exact (List.mem_filter.mp hf).1
  refine ⟨main.1, main.2.1, main.2.2.1, ?_⟩
  intro hcanon f hf hX
  apply main.2.2.1 f hf
  rw [← hX]
  exact hcanon f (main.2.2.2 f hf)

/-- Scenario 3 on the example store: deleting the file "todo.txt", which has two notes. -/
theorem deleteFile_cascades_witness :
    (exStore.files.map File._id).Nodup ∧
    (serve (deleteFilesId "0000000000000000000000a1") exStore).1 = Res.ok ResBody.success ∧
    (serve (deleteFilesId "0000000000000000000000a1") exStore).2.store.notes = exKept.notes ∧
    (serve (deleteFilesId "0000000000000000000000a1") exStore).2.store.files = exKept.files :=
  ⟨by decide,
   (deleteFile_cascades exStore "0000000000000000000000a1" (by decide)).1 (by decide),
   by decide, by decide⟩

/-- C3, as the code has it.  Idempotent delete for an id that casts to an ObjectId `oid`.  When
no Folder has `oid` and no File has the id as `folderId`, the folder delete answers
`{success: true}` and leaves the store as it was; when no File has `oid` and no Note has the id
as `fileId`, the file delete does the same.  With unique ids, running either delete a second
time on the store the first run left answers `{success: true}` again and leaves that store as
it is. -/
theorem delete_idempotent (s : Store) (id oid : String) (h : castObjectId id = some oid) :
    ((∀ d ∈ s.folders, d._id ≠ oid) → (∀ f ∈ s.files, f.folderId ≠ some id) →
      (serve (deleteFoldersId id) s).1 = Res.ok ResBody.success ∧
      (serve (deleteFoldersId id) s).2.store = s) ∧
    ((∀ f ∈ s.files, f._id ≠ oid) → (∀ n ∈ s.notes, n.fileId ≠ some id) →
      (serve (deleteFilesId id) s).1 = Res.ok ResBody.success ∧
      (serve (deleteFilesId id) s).2.store = s) ∧
    ((s.folders.map Folder._id).Nodup →
      (serve (deleteFoldersId id) (serve (deleteFoldersId id) s).2.store).1 =
        Res.ok ResBody.success ∧
      (serve (deleteFoldersId id) (serve (deleteFoldersId id) s).2.store).2.store =
        (serve (deleteFoldersId id) s).2.store) ∧
    ((s.files.map File._id).Nodup →
      (serve (deleteFilesId id) (serve (deleteFilesId id) s).2.store).1 =
        Res.ok ResBody.success ∧
      (serve (deleteFilesId id) (serve (deleteFilesId id) s).2.store).2.store =
        (serve (deleteFilesId id) s).2.store) := by
  have folderCase : ∀ t : Store, (∀ d ∈ t.folders, d._id ≠ oid) →
      (∀ f ∈ t.files, f.folderId ≠ some id) →
      (serve (deleteFoldersId id) t).1 = Res.ok ResBody.success ∧
      (serve (deleteFoldersId id) t).2.store = t := by
    intro t h1 h2
    rw [deleteFoldersId_run id oid t h]
    refine ⟨rfl, ?_⟩
    have e1 := findOneAndDelete_absent Folder._id oid t.folders h1
    have e2 : t.files.filter (fun f => !decide (f.folderId = some id)) = t.files :=
      List.filter_eq_self.mpr (fun x hx => by simpa using h2 x hx)
    have e3 := find_eq_nil File.folderId id t.files h2
    simp [e1, e2, e3]
  have fileCase : ∀ t : Store, (∀ f ∈ t.files, f._id ≠ oid) →
      (∀ n ∈ t.notes, n.fileId ≠ some id) →
      (serve (deleteFilesId id) t).1 = Res.ok ResBody.success ∧
      (serve (deleteFilesId id) t).2.store = t := by
    intro t h1 h2
    rw [deleteFilesId_run id oid t h]
    refine ⟨rfl, ?_⟩
    have e1 := findOneAndDelete_absent File._id oid t.files h1
    have e2 : t.notes.filter (fun n => !decide (n.fileId = some id)) = t.notes :=
      List.filter_eq_self.mpr (fun x hx => by simpa using h2 x hx)
    simp [e1, e2]
  refine ⟨folderCase s, fileCase s, fun hu => ?_, fun hu => ?_⟩
  · apply folderCase
    · rw [deleteFoldersId_run id oid s h]
      show ∀ d ∈ (Model.findOneAndDelete Folder._id oid s.folders).2, d._id ≠ oid
      rw [findOneAndDelete_nodup Folder._id oid s.folders hu]
      exact filter_id_clears Folder._id oid s.folders
    · rw [deleteFoldersId_run id oid s h]
      exact filter_ne_clears File.folderId id s.files
  · apply fileCase
    · rw [deleteFilesId_run id oid s h]
      show ∀ f ∈ (Model.findOneAndDelete File._id oid s.files).2, f._id ≠ oid
      rw [findOneAndDelete_nodup File._id oid s.files hu]
      exact filter_id_clears File._id oid s.files
    · rw [deleteFilesId_run id oid s h]
      exact filter_ne_clears Note.fileId id s.notes

/-- On the example store: deleting the unknown id ending in "ff" changes nothing, and deleting
folder "Work" or file "todo.txt" a second time changes nothing more. -/
theorem delete_idempotent_witness :
    ((serve (deleteFoldersId "0000000000000000000000ff") exStore).1 = Res.ok ResBody.success ∧
      (serve (deleteFoldersId "0000000000000000000000ff") exStore).2.store = exStore) ∧
    ((serve (deleteFilesId "0000000000000000000000ff") exStore).1 = Res.ok ResBody.success ∧
      (serve (deleteFilesId "0000000000000000000000ff") exStore).2.store = exStore) ∧
    ((serve (deleteFoldersId "0000000000000000000000f1")
        (serve (deleteFoldersId "0000000000000000000000f1") exStore).2.store).1 =
        Res.ok ResBody.success ∧
      (serve (deleteFoldersId "0000000000000000000000f1")
        (serve (deleteFoldersId "0000000000000000000000f1") exStore).2.store).2.store =
        (serve (deleteFoldersId "0000000000000000000000f1") exStore).2.store) ∧
    ((serve (deleteFilesId "0000000000000000000000a1")
        (serve (deleteFilesId "0000000000000000000000a1") exStore).2.store).1 =
        Res.ok ResBody.success ∧
      (serve (deleteFilesId "0000000000000000000000a1")
        (serve (deleteFilesId "0000000000000000000000a1") exStore).2.store).2.store =
        (serve (deleteFilesId "0000000000000000000000a1") exStore).2.store) :=
  ⟨(delete_idempotent exStore "0000000000000000000000ff" "0000000000000000000000ff"
      (by decide)).1 (by decide) (by decide),
   (delete_idempotent exStore "0000000000000000000000ff" "0000000000000000000000ff"
      (by decide)).2.1 (by decide) (by decide),
   (delete_idempotent exStore "0000000000000000000000f1" "0000000000000000000000f1"
      (by decide)).2.2.1 (by decide),
   (delete_idempotent exStore "0000000000000000000000a1" "0000000000000000000000a1"
      (by decide)).2.2.2 (by decide)⟩

/-- C3 as it is written fails on the code.  On the example store no Folder and no File has the
id "zz" and nothing refers to it, yet both deletes are rejected instead of answering
`{success: true}`: "zz" does not cast to an ObjectId.  And no Folder has the string
"0000000000000000000000F1" as its id and no File has it as `folderId`, yet the folder delete on
it does not leave the store unchanged: it removes folder "Work". -/
theorem delete_idempotent_counterexample :
    "zz" ∉ exStore.folders.map Folder._id ∧
    some "zz" ∉ exStore.files.map File.folderId ∧
    (serve (deleteFoldersId "zz") exStore).1 = Res.rejected ∧
    "zz" ∉ exStore.files.map File._id ∧
    some "zz" ∉ exStore.notes.map Note.fileId ∧
    (serve (deleteFilesId "zz") exStore).1 = Res.rejected ∧
    "0000000000000000000000F1" ∉ exStore.folders.map Folder._id ∧
    some "0000000000000000000000F1" ∉ exStore.files.map File.folderId ∧
    (serve (deleteFoldersId "0000000000000000000000F1") exStore).2.store.folders =
      exKept.folders := by
  decide

/-- C4. Update preserves unspecified fields: in a store whose File ids are unique, for every
File `f` of the store and every request to `PUT /api/files/:id` whose id casts to the ObjectId
of `f` and whose body has a `content` and no `name`, the returned File is `f` with the new
content and the same `_id`, `folderId`, `name` and `createdAt`; it is the File stored under
that id, and every other File, every Folder and every Note is as before. -/
theorem putFile_content_keeps_name (s : Store) (f : File) (id : String) (body : ReqBody)
    (c : String) (hu : (s.files.map File._id).Nodup) (hf : f ∈ s.files)
    (hid : castObjectId id = some f._id)
    (hname : body.name = none) (hcontent : body.content = some c) :
    (serve (putFilesId id body) s).1 =
      Res.ok (ResBody.fileDoc (some { _id := f._id, folderId := f.folderId, name := f.name,
                                      content := some c, createdAt := f.createdAt })) ∧
    (serve (putFilesId id body) s).2.store.files =
      s.files.map (fun d =>
        if d._id = f._id then
          { _id := d._id, folderId := d.folderId, name := d.name, content := some c,
            createdAt := d.createdAt }
        else d) ∧
    ({ _id := f._id, folderId := f.folderId, name := f.name, content := some c,
       createdAt := f.createdAt } : File) ∈ (serve (putFilesId id body) s).2.store.files ∧
    (serve (putFilesId id body) s).2.store.folders = s.folders ∧
    (serve (putFilesId id body) s).2.store.notes = s.notes := by
  have hop : File.findByIdAndUpdate id body.name body.content s =
      some (some { _id := f._id, folderId := f.folderId, name := f.name, content := some c,
                   createdAt := f.createdAt },
            { folders := s.folders,
              files := s.files.map (fun d =>
                if d._id = f._id then
                  { _id := d._id, folderId := d.folderId, name := d.name, content := some c,
                    createdAt := d.createdAt }
                else d),
              notes := s.notes }) := by
    simp only [File.findByIdAndUpdate, Model.findByIdAndUpdate, hid, hname, hcontent]
    rw [findOneAndUpdate_nodup File._id _ s.files hu f hf]
    rfl
  have hrun : serve (putFilesId id body) s = _ :=
    show (await (File.findByIdAndUpdate id body.name body.content) >>= fun file =>
      pure (ResBody.fileDoc file)) { store := s, faultIn := none, log := [] } = _ from by
      rw [bind_run, await_none _ s [] _ hop]
  rw [hrun]
  refine ⟨rfl, rfl, ?_, rfl, rfl⟩
  exact List.mem_map.mpr ⟨f, hf, by simp⟩

/-- Writing only a new content to the file "todo.txt" of the example store. -/
theorem putFile_content_keeps_name_witness :
    (exStore.files.map File._id).Nodup ∧
    (serve (putFilesId "0000000000000000000000a1"
        { name := none, folderId := none, fileId := none, title := none,
          content := some "milk, eggs" }) exStore).1 =
      Res.ok (ResBody.fileDoc (some { _id := "0000000000000000000000a1",
                                      folderId := some "0000000000000000000000f1",
                                      name := some "todo.txt", content := some "milk, eggs",
                                      createdAt := 3 })) :=
  ⟨by decide,
   (putFile_content_keeps_name exStore exFile "0000000000000000000000a1"
      { name := none, folderId := none, fileId := none, title := none,
        content := some "milk, eggs" }
      "milk, eggs" (by decide) (by decide) (by decide) rfl rfl).1⟩

/-- C5, as the code has it.  Update of a missing id: when the id casts to an ObjectId that no
Note has, the handler of `PUT /api/notes/:id` answers with the null document and leaves the
three collections exactly as they were. -/
theorem putNote_missing_id (s : Store) (id oid : String) (body : ReqBody)
    (hid : castObjectId id = some oid) (h : ∀ n ∈ s.notes, n._id ≠ oid) :
    (serve (putNotesId id body) s).1 = Res.ok (ResBody.noteDoc none) ∧
    (serve (putNotesId id body) s).2.store = s := by
  have hop : Note.findByIdAndUpdate id body.title body.content s = some (none, s) := by
    simp only [Note.findByIdAndUpdate, Model.findByIdAndUpdate, hid]
    rw [findOneAndUpdate_absent Note._id oid _ s.notes h]
  have hrun : serve (putNotesId id body) s = _ :=
    show (await (Note.findByIdAndUpdate id body.title body.content) >>= fun note =>
      pure (ResBody.noteDoc note)) { store := s, faultIn := none, log := [] } = _ from by
      rw [bind_run, await_none _ s [] _ hop]
  rw [hrun]
  exact ⟨rfl, rfl⟩

/-- Scenario 4 on the example store: updating a note id, ending in "ff", that no note has. -/
theorem putNote_missing_id_witness :
    (serve (putNotesId "0000000000000000000000ff"
        { name := none, folderId := none, fileId := none, title := some "t",
          content := some "c" }) exStore).1 = Res.ok (ResBody.noteDoc none) ∧
    (serve (putNotesId "0000000000000000000000ff"
        { name := none, folderId := none, fileId := none, title := some "t",
          content := some "c" }) exStore).2.store = exStore :=
  putNote_missing_id exStore "0000000000000000000000ff" "0000000000000000000000ff"
    { name := none, folderId := none, fileId := none, title := some "t", content := some "c" }
    (by decide) (by decide)

/-- C5 as it is written fails on the code.  On the example store no Note has the id "zz", yet
the update on it is rejected instead of answering null: "zz" does not cast to an ObjectId.  And
no Note has the string "0000000000000000000000B1" as its id, yet the update on it answers with
a Note and changes the Note collection: it casts to the ObjectId of the note "buy milk". -/
theorem putNote_missing_id_counterexample :
    "zz" ∉ exStore.notes.map Note._id ∧
    (serve (putNotesId "zz"
        { name := none, folderId := none, fileId := none, title := some "t",
          content := some "c" }) exStore).1 = Res.rejected ∧
    "0000000000000000000000B1" ∉ exStore.notes.map Note._id ∧
    (serve (putNotesId "0000000000000000000000B1"
        { name := none, folderId := none, fileId := none, title := some "t",
          content := some "c" }) exStore).1 =
      Res.ok (ResBody.noteDoc (some { _id := "0000000000000000000000b1",
                                      fileId := some "0000000000000000000000a1",
                                      title := some "t", content := some "c",
                                      createdAt := 5 })) ∧
    (serve (putNotesId "0000000000000000000000B1"
        { name := none, folderId := none, fileId := none, title := some "t",
          content := some "c" }) exStore).2.store.notes ≠ exStore.notes := by
  decide

/-- C6. Note creation default: the handler of `POST /api/notes` stores, at the end of the Note
collection, and returns one Note with the `fileId` and `title` of the request; its content is
`""` when the request has no `content`, and is the given string when the request has a
non-empty `content`. -/
theorem postNotes_content_default (s : Store) (body : ReqBody) (newId : String) (now : Nat) :
    (body.content = none →
      (serve (postNotes body newId now) s).1 =
        Res.ok (ResBody.noteDoc (some { _id := newId, fileId := body.fileId,
                                        title := body.title, content := some "",
                                        createdAt := now })) ∧
      (serve (postNotes body newId now) s).2.store.notes =
        s.notes ++ [{ _id := newId, fileId := body.fileId, title := body.title,
                      content := some "", createdAt := now }]) ∧
    (∀ c : String, c ≠ "" → body.content = some c →
      (serve (postNotes body newId now) s).1 =
        Res.ok (ResBody.noteDoc (some { _id := newId, fileId := body.fileId,
                                        title := body.title, content := some c,
                                        createdAt := now })) ∧
      (serve (postNotes body newId now) s).2.store.notes =
        s.notes ++ [{ _id := newId, fileId := body.fileId, title := body.title,
                      content := some c, createdAt := now }]) := by
  have hrun : serve (postNotes body newId now) s =
      (Res.ok (ResBody.noteDoc (some { _id := newId, fileId := body.fileId,
                                       title := body.title,
                                       content := some (orEmpty body.content),
                                       createdAt := now })),
        { store :=
            { folders := s.folders, files := s.files,
              notes := s.notes ++ [{ _id := newId, fileId := body.fileId, title := body.title,
                                     content := some (orEmpty body.content),
                                     createdAt := now }] },
          faultIn := none,
          log :=
            [{ folders := s.folders, files := s.files,
               notes := s.notes ++ [{ _id := newId, fileId := body.fileId, title := body.title,
                                      content := some (orEmpty body.content),
                                      createdAt := now }] }] }) := rfl
  rw [hrun]
  constructor
  · intro h
    rw [h]
    exact ⟨rfl, rfl⟩
  · intro c hc h
    have hor : orEmpty (some c) = c := by simp [orEmpty, hc]
    rw [h, hor]
    exact ⟨rfl, rfl⟩

/-- Creating the note "buy milk" under the file "todo.txt" without a content, and with the
content "2 litres". -/
theorem postNotes_content_default_witness :
    (serve (postNotes
        { name := none, folderId := none, fileId := some "0000000000000000000000a1",
          title := some "buy milk", content := none } "0000000000000000000000b9" 8) exStore).1 =
      Res.ok (ResBody.noteDoc (some { _id := "0000000000000000000000b9",
                                      fileId := some "0000000000000000000000a1",
                                      title := some "buy milk", content := some "",
                                      createdAt := 8 })) ∧
    (serve (postNotes
        { name := none, folderId := none, fileId := some "0000000000000000000000a1",
          title := some "buy milk", content := some "2 litres" }
        "0000000000000000000000b9" 8) exStore).1 =
      Res.ok (ResBody.noteDoc (some { _id := "0000000000000000000000b9",
                                      fileId := some "0000000000000000000000a1",
                                      title := some "buy milk", content := some "2 litres",
                                      createdAt := 8 })) :=
  ⟨((postNotes_content_default exStore
        { name := none, folderId := none, fileId := some "0000000000000000000000a1",
          title := some "buy milk", content := none }
        "0000000000000000000000b9" 8).1 rfl).1,
   ((postNotes_content_default exStore
        { name := none, folderId := none, fileId := some "0000000000000000000000a1",
          title := some "buy milk", content := some "2 litres" }
        "0000000000000000000000b9" 8).2 "2 litres" (by decide) rfl).1⟩

/-- C7. No referential validation on file creation: from every store and for every `folderId`
string, whether or not a Folder has that id, the handler of `POST /api/files` stores one new
File with that `folderId`, the given name and content `""` at the end of the File collection
and returns it; the Folders, the Notes and the Files that were there are unchanged, and the
listing of the Files of that `folderId` is the former listing followed by the new File. -/
theorem postFiles_no_referential_check (s : Store) (body : ReqBody) (folderId newId : String)
    (now : Nat) (h : body.folderId = some folderId) :
    (serve (postFiles body newId now) s).1 =
      Res.ok (ResBody.fileDoc (some { _id := newId, folderId := some folderId,
                                      name := body.name, content := some "",
                                      createdAt := now })) ∧
    (serve (postFiles body newId now) s).2.store =
      { folders := s.folders,
        files := s.files ++ [{ _id := newId, folderId := some folderId, name := body.name,
                               content := some "", createdAt := now }],
        notes := s.notes } ∧
    (serve (getFilesFolderId folderId) (serve (postFiles body newId now) s).2.store).1 =
      Res.ok (ResBody.fileList
        (Model.find File.folderId folderId s.files ++
          [{ _id := newId, folderId := some folderId, name := body.name, content := some "",
             createdAt := now }])) := by
  have hrun : serve (postFiles body newId now) s =
      (Res.ok (ResBody.fileDoc (some { _id := newId, folderId := body.folderId,
                                       name := body.name, content := some "",
                                       createdAt := now })),
        { store :=
            { folders := s.folders,
              files := s.files ++ [{ _id := newId, folderId := body.folderId,
                                     name := body.name, content := some "",
                                     createdAt := now }],
              notes := s.notes },
          faultIn := none,
          log :=
            [{ folders := s.folders,
               files := s.files ++ [{ _id := newId, folderId := body.folderId,
                                      name := body.name, content := some "",
                                      createdAt := now }],
               notes := s.notes }] }) := rfl
  rw [hrun, h, getFilesFolderId_run]
  refine ⟨rfl, rfl, ?_⟩
  simp [Model.find, List.filter_append]

/-- Scenario 2 on the example store: creating a file under "abc123", the id of no folder. -/
theorem postFiles_no_referential_check_witness :
    (serve (postFiles
        { name := some "stray.txt", folderId := some "abc123", fileId := none, title := none,
          content := none } "0000000000000000000000a9" 8) exStore).1 =
      Res.ok (ResBody.fileDoc (some { _id := "0000000000000000000000a9",
                                      folderId := some "abc123",
                                      name := some "stray.txt", content := some "",
                                      createdAt := 8 })) ∧
    (serve (getFilesFolderId "abc123")
      (serve (postFiles
        { name := some "stray.txt", folderId := some "abc123", fileId := none, title := none,
          content := none } "0000000000000000000000a9" 8) exStore).2.store).1 =
      Res.ok (ResBody.fileList [{ _id := "0000000000000000000000a9",
                                  folderId := some "abc123",
                                  name := some "stray.txt", content := some "",
                                  createdAt := 8 }]) :=
  ⟨(postFiles_no_referential_check exStore
      { name := some "stray.txt", folderId := some "abc123", fileId := none, title := none,
        content := none } "abc123" "0000000000000000000000a9" 8 rfl).1,
   (postFiles_no_referential_check exStore
      { name := some "stray.txt", folderId := some "abc123", fileId := none, title := none,
        content := none } "abc123" "0000000000000000000000a9" 8 rfl).2.2⟩

theorem deleteFoldersId_log_length (id : String) (s : Store) :
    (castObjectId id ≠ none →
      (serve (deleteFoldersId id) s).2.log.length =
        (Model.find File.folderId id s.files).length + 3) ∧
    (castObjectId id = none →
      (serve (deleteFoldersId id) s).2.log.length =
        (Model.find File.folderId id s.files).length + 2) := by
  cases h : castObjectId id with
  | none =>
    rw [deleteFoldersId_run_reject id s h]
    exact ⟨fun hne => absurd rfl hne, fun _ => by simp [List.length_scanl]⟩
  | some oid =>
    rw [deleteFoldersId_run id oid s h]
    exact ⟨fun _ => by simp [List.length_scanl], fun hc => Option.noConfusion hc⟩

/-- The stores that the folder delete logs before its last storage call all have the Folder
collection of the start. -/
theorem deleteFoldersId_log_folders (id : String) (s : Store) (k : Nat)
    (hk : k < (serve (deleteFoldersId id) s).2.log.length) :
    ∀ t ∈ (serve (deleteFoldersId id) s).2.log.take k, t.folders = s.folders := by
  cases h : castObjectId id with
  | none =>
    rw [deleteFoldersId_run_reject id s h]
    intro t ht
    have ht := List.mem_of_mem_take ht
    simp only [List.mem_append, List.mem_cons, List.mem_singleton, List.not_mem_nil,
      or_false] at ht
    rcases ht with (rfl | ht) | rfl
    · rfl
    · exact (notesLoop_log _ s t (List.mem_of_mem_tail ht)).1
    · rfl
  | some oid =>
    rw [deleteFoldersId_run id oid s h] at hk ⊢
    intro t ht
    simp only [] at ht hk
    rw [show ∀ (L : List Store) (a b : Store), L ++ [a, b] = (L ++ [a]) ++ [b] from
      fun L a b => by simp] at ht
    rw [List.take_append_of_le_length (by
      simp [List.length_scanl] at hk ⊢
      omega)] at ht
    have ht := List.mem_of_mem_take ht
    simp only [List.mem_append, List.mem_cons, List.mem_singleton, List.not_mem_nil,
      or_false] at ht
    rcases ht with (rfl | ht) | rfl
    · rfl
    · exact (notesLoop_log _ s t (List.mem_of_mem_tail ht)).1
    · rfl

/-- The stores that the folder delete logs before `File.deleteMany` all have the File
collection of the start. -/
theorem deleteFoldersId_log_files (id : String) (s : Store) (k : Nat)
    (hk : k < (Model.find File.folderId id s.files).length + 2) :
    ∀ t ∈ (serve (deleteFoldersId id) s).2.log.take k, t.files = s.files := by
  have key : ∀ rest : List Store,
      ∀ t ∈ (s :: ((Model.find File.folderId id s.files).scanl (fun t f =>
          { folders := t.folders, files := t.files,
            notes := t.notes.filter (fun n => !decide (n.fileId = some f._id)) }) s).tail ++
          rest).take k, t.files = s.files := by
    intro rest t ht
    rw [List.take_append_of_le_length (by simp [List.length_scanl]; omega)] at ht
    have ht := List.mem_of_mem_take ht
    simp only [List.mem_cons] at ht
    rcases ht with rfl | ht
    · rfl
    · exact (notesLoop_log _ s t (List.mem_of_mem_tail ht)).2
  cases h : castObjectId id with
  | none =>
    rw [deleteFoldersId_run_reject id s h]
    exact key _
  | some oid =>
    rw [deleteFoldersId_run id oid s h]
    exact key _

/-- C8. Error propagation in the folder delete.  The storage calls of the folder delete are
`File.find`, one `Note.deleteMany` per File of the folder, `File.deleteMany` and, when the id
casts to an ObjectId, `Folder.findByIdAndDelete`.  When the storage fails once, at call number
`k` of these, and would serve any call made after it, the handler is rejected, so
`{success: true}` is not sent; the store is the one the first `k` calls of the fault-free run
produced and exactly those `k` calls were made, so no later call ran and nothing was rolled
back.  In particular the Folder collection is untouched, and so is the File collection when
the fault comes before the last call. -/
theorem deleteFolder_fault_aborts (s : Store) (id : String) (k : Nat)
    (hk : k < (serve (deleteFoldersId id) s).2.log.length) :
    serveFaulty (deleteFoldersId id) k s =
      (Res.rejected,
        { store := ((serve (deleteFoldersId id) s).2.log.take k).getLastD s,
          faultIn := none,
          log := (serve (deleteFoldersId id) s).2.log.take k }) ∧
    (serveFaulty (deleteFoldersId id) k s).2.log.length = k ∧
    (serveFaulty (deleteFoldersId id) k s).2.store.folders = s.folders ∧
    (k < (Model.find File.folderId id s.files).length + 2 →
      (serveFaulty (deleteFoldersId id) k s).2.store.files = s.files) ∧
    (castObjectId id ≠ none →
      (serve (deleteFoldersId id) s).2.log.length =
        (Model.find File.folderId id s.files).length + 3) ∧
    (castObjectId id = none →
      (serve (deleteFoldersId id) s).2.log.length =
        (Model.find File.folderId id s.files).length + 2) := by
  have hlen := deleteFoldersId_log_length id s
  have hrun : serveFaulty (deleteFoldersId id) k s =
      (Res.rejected,
        { store := ((serve (deleteFoldersId id) s).2.log.take k).getLastD s,
          faultIn := none,
          log := (serve (deleteFoldersId id) s).2.log.take k }) := by
    have h := (((lawful_deleteFoldersId id) s []).2 k).1 hk
    rw [List.nil_append] at h
    exact h
  refine ⟨hrun, ?_, ?_, ?_, hlen.1, hlen.2⟩
  · rw [hrun]
    exact List.length_take_of_le (Nat.le_of_lt hk)
  · rw [hrun]
    rcases getLastD_mem ((serve (deleteFoldersId id) s).2.log.take k) s with h | h
    · show (((serve (deleteFoldersId id) s).2.log.take k).getLastD s).folders = s.folders
      rw [h]
    · exact deleteFoldersId_log_folders id s k hk _ h
  · intro hk2
    rw [hrun]
    rcases getLastD_mem ((serve (deleteFoldersId id) s).2.log.take k) s with h | h
    · show (((serve (deleteFoldersId id) s).2.log.take k).getLastD s).files = s.files
      rw [h]
    · exact deleteFoldersId_log_files id s k hk2 _ h

/-- On the example store the folder delete of "Work" makes four storage calls; when the third
one, `File.deleteMany`, fails, the handler is rejected after two calls: the notes of
"todo.txt" are gone while the file and the folder are still there. -/
theorem deleteFolder_fault_aborts_witness :
    (serve (deleteFoldersId "0000000000000000000000f1") exStore).2.log.length = 4 ∧
    (serveFaulty (deleteFoldersId "0000000000000000000000f1") 2 exStore).1 = Res.rejected ∧
    (serveFaulty (deleteFoldersId "0000000000000000000000f1") 2 exStore).2.log.length = 2 ∧
    (serveFaulty (deleteFoldersId "0000000000000000000000f1") 2 exStore).2.store =
      { folders := exStore.folders, files := exStore.files, notes := exKept.notes } :=
  ⟨(deleteFolder_fault_aborts exStore "0000000000000000000000f1" 2 (by decide)).2.2.2.2.1
      (by decide),
   by rw [(deleteFolder_fault_aborts exStore "0000000000000000000000f1" 2 (by decide)).1],
   (deleteFolder_fault_aborts exStore "0000000000000000000000f1" 2 (by decide)).2.1,
   by decide⟩

/-- C9. Children are deleted before the parent.  File delete on `X`: the File collection after
the first storage call is still the one of the start, and when `X` casts to an ObjectId a
second call removes that File; in the store after either call no Note has `fileId = X`.
Folder delete on `X`: in the store after each of its storage calls, a File of the folder that
is no longer there has no Note left, and if the Folder existed and is no longer there then no
File has `folderId = X`, whether the Folder is found by the string `X` or by the ObjectId that
`X` casts to. -/
theorem children_deleted_first (s : Store) (X : String) :
    (∀ oid, castObjectId X = some oid →
      (serve (deleteFilesId X) s).2.log.map Store.files =
        [s.files, (Model.findOneAndDelete File._id oid s.files).2]) ∧
    (castObjectId X = none →
      (serve (deleteFilesId X) s).2.log.map Store.files = [s.files]) ∧
    (∀ t ∈ (serve (deleteFilesId X) s).2.log, ∀ n ∈ t.notes, n.fileId ≠ some X) ∧
    (∀ t ∈ (serve (deleteFoldersId X) s).2.log,
      (∀ f ∈ s.files, f.folderId = some X → (∀ g ∈ t.files, g._id ≠ f._id) →
        ∀ n ∈ t.notes, n.fileId ≠ some f._id) ∧
      ((∃ d ∈ s.folders, d._id = X) → (∀ d ∈ t.folders, d._id ≠ X) →
        ∀ f ∈ t.files, f.folderId ≠ some X) ∧
      ((∃ d ∈ s.folders, castObjectId X = some d._id) →
        (∀ d ∈ t.folders, castObjectId X ≠ some d._id) →
        ∀ f ∈ t.files, f.folderId ≠ some X)) := by
  have hnotes := folderNotes_cleared s X
  have early : ∀ t : Store, t.folders = s.folders → (t.files = s.files ∨
        ∀ n ∈ t.notes, ∀ f ∈ s.files, f.folderId = some X → n.fileId ≠ some f._id) →
      (∀ f ∈ s.files, f.folderId = some X → (∀ g ∈ t.files, g._id ≠ f._id) →
        ∀ n ∈ t.notes, n.fileId ≠ some f._id) ∧
      ((∃ d ∈ s.folders, d._id = X) → (∀ d ∈ t.folders, d._id ≠ X) →
        ∀ f ∈ t.files, f.folderId ≠ some X) ∧
      ((∃ d ∈ s.folders, castObjectId X = some d._id) →
        (∀ d ∈ t.folders, castObjectId X ≠ some d._id) →
        ∀ f ∈ t.files, f.folderId ≠ some X) := by
    intro t h1 h2
    refine ⟨?_, ?_, ?_⟩
    · intro f hf hF hgone n hn
      rcases h2 with h2 | h2
      · rw [h2] at hgone
        exact absurd rfl (hgone f hf)
      · exact h2 n hn f hf hF
    · rintro ⟨d, hd, hdX⟩ hgone
      rw [h1] at hgone
      exact absurd hdX (hgone d hd)
    · rintro ⟨d, hd, hdX⟩ hgone
      rw [h1] at hgone
      exact absurd hdX (hgone d hd)
  have firstStates : ∀ t ∈ s ::
      ((Model.find File.folderId X s.files).scanl (fun t f =>
        { folders := t.folders, files := t.files,
          notes := t.notes.filter (fun n => !decide (n.fileId = some f._id)) }) s).tail ++
      [{ folders := s.folders,
         files := s.files.filter (fun f => !decide (f.folderId = some X)),
         notes := s.notes.filter (fun n =>
          decide (∀ f ∈ Model.find File.folderId X s.files, n.fileId ≠ some f._id)) }],
      t.folders = s.folders ∧ (t.files = s.files ∨
        ∀ n ∈ t.notes, ∀ f ∈ s.files, f.folderId = some X → n.fileId ≠ some f._id) := by
    intro t ht
    simp only [List.mem_append, List.mem_cons, List.mem_singleton, List.not_mem_nil,
      or_false] at ht
    rcases ht with (rfl | ht) | rfl
    · exact ⟨rfl, Or.inl rfl⟩
    · have h := notesLoop_log _ s t (List.mem_of_mem_tail ht)
      exact ⟨h.1, Or.inl h.2⟩
    · exact ⟨rfl, Or.inr (fun n hn f hf hF => hnotes f hf hF n hn)⟩
  refine ⟨?_, ?_, ?_, ?_⟩
  · intro oid h
    rw [deleteFilesId_run X oid s h]
    rfl
  · intro h
    rw [deleteFilesId_run_reject X s h]
    rfl
  · cases h : castObjectId X with
    | none =>
      rw [deleteFilesId_run_reject X s h]
      intro t ht
      simp only [List.mem_singleton] at ht
      rw [ht]
      exact filter_ne_clears Note.fileId X s.notes
    | some oid =>
      rw [deleteFilesId_run X oid s h]
      intro t ht
      simp only [List.mem_cons, List.mem_singleton, List.not_mem_nil, or_false] at ht
      rcases ht with rfl | rfl
      · exact filter_ne_clears Note.fileId X s.notes
      · exact filter_ne_clears Note.fileId X s.notes
  · cases h : castObjectId X with
    | none =>
      rw [deleteFoldersId_run_reject X s h]
      intro t ht
      have e := early t (firstStates t ht).1 (firstStates t ht).2
      rw [h] at e
      exact e
    | some oid =>
      rw [deleteFoldersId_run X oid s h]
      intro t ht
      rw [show ∀ (L : List Store) (a b : Store), L ++ [a, b] = (L ++ [a]) ++ [b] from
        fun L a b => by simp] at ht
      rcases List.mem_append.mp ht with ht | ht
      · have e := early t (firstStates t ht).1 (firstStates t ht).2
        rw [h] at e
        exact e
      · simp only [List.mem_singleton] at ht
        rw [ht]
        exact ⟨fun f hf hF _ => hnotes f hf hF,
          fun _ _ => filter_ne_clears File.folderId X s.files,
          fun _ _ => filter_ne_clears File.folderId X s.files⟩

/-- Scenario 3 on the example store: the file "todo.txt" has two notes; after the first storage
call of its delete both notes are gone and the file is still stored. -/
theorem children_deleted_first_witness :
    (serve (deleteFilesId "0000000000000000000000a1") exStore).2.log.map Store.files =
      [exStore.files, exKept.files] ∧
    (serve (deleteFilesId "0000000000000000000000a1") exStore).2.log.map Store.notes =
      [exKept.notes, exKept.notes] :=
  ⟨(children_deleted_first exStore "0000000000000000000000a1").1 "0000000000000000000000a1"
      (by decide),
   by decide⟩

/-- C10, as the code has it.  Frame of the folder delete: in a store whose Folder ids are
unique, the folder delete on `F` leaves exactly the Folders whose id is not the ObjectId that
`F` casts to (all of them when `F` does not cast), exactly the Files whose `folderId` is not the
string `F`, and exactly the Notes whose `fileId` is not the id of a File that had
`folderId = F`; the documents that stay are the same records, in the same order. -/
theorem deleteFolder_frame (s : Store) (F : String)
    (hu : (s.folders.map Folder._id).Nodup) :
    (serve (deleteFoldersId F) s).2.store.folders =
      s.folders.filter (fun d => !decide (castObjectId F = some d._id)) ∧
    (serve (deleteFoldersId F) s).2.store.files =
      s.files.filter (fun f => !decide (f.folderId = some F)) ∧
    (serve (deleteFoldersId F) s).2.store.notes =
      s.notes.filter (fun n =>
        decide (∀ f ∈ s.files, f.folderId = some F → n.fileId ≠ some f._id)) := by
  have hnotes : s.notes.filter (fun n =>
        decide (∀ f ∈ Model.find File.folderId F s.files, n.fileId ≠ some f._id)) =
      s.notes.filter (fun n =>
        decide (∀ f ∈ s.files, f.folderId = some F → n.fileId ≠ some f._id)) := by
    apply List.filter_congr
    intro n _
    simp only [mem_find, decide_eq_decide]
    constructor
    · intro h f hf hF
      exact h f ⟨hf, hF⟩
    · intro h f hf
      exact h f hf.1 hf.2
  cases h : castObjectId F with
  | none =>
    rw [deleteFoldersId_run_reject F s h]
    refine ⟨?_, rfl, hnotes⟩
    exact (List.filter_eq_self.mpr (fun d _ => by simp)).symm
  | some oid =>
    rw [deleteFoldersId_run F oid s h]
    refine ⟨?_, rfl, hnotes⟩
    show (Model.findOneAndDelete Folder._id oid s.folders).2 = _
    rw [findOneAndDelete_nodup Folder._id oid s.folders hu]
    apply List.filter_congr
    intro d _
    by_cases hd : d._id = oid
    · simp [hd]
    · have : ¬ oid = d._id := fun e => hd e.symm
      simp [hd, this]

/-- The folder delete of "Work" on the example store keeps the other folder, its file and its
note. -/
theorem deleteFolder_frame_witness :
    (exStore.folders.map Folder._id).Nodup ∧
    (serve (deleteFoldersId "0000000000000000000000f1") exStore).2.store.folders =
      exKept.folders ∧
    (serve (deleteFoldersId "0000000000000000000000f1") exStore).2.store.files =
      exKept.files ∧
    (serve (deleteFoldersId "0000000000000000000000f1") exStore).2.store.notes =
      exKept.notes :=
  ⟨by decide, deleteFolder_frame exStore "0000000000000000000000f1" (by decide)⟩

/-- C10 as it is written fails on the code.  In the example store the folder "Work" has the id
"0000000000000000000000f1", which is not the string "0000000000000000000000F1", so for the
folder delete on the latter it is another Folder and should stay; the delete removes it, and
keeps its file and the notes of that file, whose `folderId` is not that string. -/
theorem deleteFolder_frame_counterexample :
    ({ _id := "0000000000000000000000f1", name := some "Work", createdAt := 1 } : Folder) ∈
      exStore.folders ∧
    "0000000000000000000000f1" ≠ "0000000000000000000000F1" ∧
    ({ _id := "0000000000000000000000f1", name := some "Work", createdAt := 1 } : Folder) ∉
      (serve (deleteFoldersId "0000000000000000000000F1") exStore).2.store.folders ∧
    (serve (deleteFoldersId "0000000000000000000000F1") exStore).2.store.files =
      exStore.files ∧
    (serve (deleteFoldersId "0000000000000000000000F1") exStore).2.store.notes =
      exStore.notes := by
  decide

end NotesAll
